import Mathlib

/-!
Shallow embedding of the solve-job lifecycle of the amplLABS backend: the
solver routes (backend/app/api/routes/solver.py), the AMPL engine adapter
(backend/app/core/ampl_engine.py) and the ORM rows those routes persist
(backend/app/models/optimization_result.py).

Modelling conventions:
* Numeric solver payloads (Python floats) are pure pass-through values in the
  translated code, so they are modelled by the opaque type Val.
* Wall-clock timestamps are modelled by a logical clock on the system state
  that advances at every datetime.utcnow() call.
* The amplpy library is external.  What one solve invocation yields from it is
  abstracted by EngineBehavior; every line of repository code that inspects
  that data (status normalization, result assembly, error capture) is
  translated below.
* The database session is modelled by explicit state passing; mutations are
  applied at the commit points of the source.  The in-memory job-status dict
  is an association list in which insertion shadows older bindings, matching
  dict assignment semantics.
-/

/-- Opaque numeric payload (a Python float in the source) that the subsystem
passes through unchanged and never computes with. -/
abbrev Val := Int

/-- One entry of the adapter's variables map: the dict built by
AMPLEngine._extract_variables for one indexed instance of a variable. -/
structure VarEntry where
  index : Option (List String) := none
  value : Option Val := none
  lb : Option Val := none
  ub : Option Val := none
  rc : Option Val := none
deriving DecidableEq, Repr

/-- One entry of the adapter's constraints map: the dict built by
AMPLEngine._extract_constraints for one indexed instance of a constraint. -/
structure ConEntry where
  index : Option (List String) := none
  body : Option Val := none
  lb : Option Val := none
  ub : Option Val := none
  dual : Option Val := none
  slack : Option Val := none
deriving DecidableEq, Repr

/-- Translation of the SolveResult dataclass of ampl_engine.py, with the same
field defaults. -/
structure SolveResult where
  status : String
  objective_value : Option Val := none
  solve_time : Option Val := none
  iterations : Option Int := none
  nodes : Option Int := none
  gap : Option Val := none
  «variables» : List (String × List VarEntry) := []
  constraints : List (String × List ConEntry) := []
  solver_output : String := ""
  error_message : Option String := none
deriving DecidableEq, Repr

/-- What the external amplpy engine yields during one successful (non-raising)
solve invocation: the raw solve_result string (none models the read raising,
after which _get_solve_status falls back to unknown), the extracted objective,
iteration count, variable and constraint maps, the captured output and the
measured elapsed time. -/
structure EngineRun where
  raw_solve_result : Option String := none
  objective : Option Val := none
  niter : Option Int := none
  «variables» : List (String × List VarEntry) := []
  constraints : List (String × List ConEntry) := []
  output : String := ""
  elapsed : Val := 0
deriving DecidableEq, Repr

/-- Behaviour of the external engine during one call of
AMPLEngine.solve_model: either the solve pipeline yields data, or some step
raises an exception (caught by the except-branch of solve_model). -/
inductive EngineBehavior where
  | ok (e : EngineRun)
  | raises (msg : String)
deriving DecidableEq, Repr

/-- Python lowercase on the underlying characters (str.lower). -/
def pyLower (s : String) : String := String.mk (s.data.map Char.toLower)

/-- Python str.strip(): drop whitespace from both ends. -/
def pyStrip (s : String) : String :=
  String.mk (((s.data.dropWhile Char.isWhitespace).reverse.dropWhile
    Char.isWhitespace).reverse)

/-- Python substring test (tok in s). -/
def containsTok (s tok : String) : Bool := decide (tok.data <:+: s.data)

/-- Python truthiness-based default (a or d) for an optional string: the
default is used when the value is absent or empty. -/
def pyOr (a : Option String) (d : String) : String :=
  match a with
  | some s => if s = "" then d else s
  | none => d

/-- Translation of AMPLEngine._normalize_status: normalize the raw AMPL solve
status to one of the five UI-safe values, by ordered substring tests on the
stripped, lowercased status. -/
def normalize_status (raw_status : String) : String :=
  let status := pyLower (pyStrip raw_status)
  if containsTok status "solved" || containsTok status "optimal" ||
      containsTok status "locally optimal" || containsTok status "globally optimal" then
    "optimal"
  else if containsTok status "infeasible" then
    "infeasible"
  else if containsTok status "unbounded" then
    "unbounded"
  else if containsTok status "error" || containsTok status "fail" then
    "error"
  else
    "unknown"

/-- Translation of AMPLEngine._get_solve_status: read solve_result from AMPL
(none models the read raising) and normalize it when it is truthy, otherwise
fall back to unknown. -/
def get_solve_status (raw_solve_result : Option String) : String :=
  match raw_solve_result with
  | none => "unknown"
  | some s => if s = "" then "unknown" else normalize_status s

/-- Translation of AMPLEngine.solve_model: assemble a SolveResult from the
engine data, or catch any exception and return an error-status result carrying
the exception text as both error message and solver output.  Note the source
never assigns the nodes and gap fields, so they keep their dataclass default
of None. -/
def solve_model (b : EngineBehavior) : SolveResult :=
  match b with
  | .raises msg =>
      { status := "error", error_message := some msg, solver_output := msg }
  | .ok e =>
      { status := get_solve_status e.raw_solve_result
        objective_value := e.objective
        solve_time := some e.elapsed
        iterations := e.niter
        «variables» := e.«variables»
        constraints := e.constraints
        solver_output := e.output }

/-- The five normalized adapter status values. -/
def adapterStatuses : List String :=
  ["optimal", "infeasible", "unbounded", "error", "unknown"]

/-- The four result-bearing terminal statuses (the non-error ones). -/
def resultBearingStatuses : List String :=
  ["optimal", "infeasible", "unbounded", "unknown"]

/-- Translation of the OptimizationRun ORM row (optimization_result.py). -/
structure RunRow where
  id : Nat
  model_id : Nat
  data_file_id : Option Nat := none
  solver_name : String
  solver_options : List (String × String) := []
  status : String := "pending"
  error_message : Option String := none
  objective_value : Option Val := none
  solve_time : Option Val := none
  iterations : Option Int := none
  nodes : Option Int := none
  gap : Option Val := none
  solver_output : Option String := none
  started_at : Option Nat := none
  completed_at : Option Nat := none
  created_at : Nat := 0
deriving DecidableEq, Repr

/-- Translation of the VariableResult ORM row. -/
structure VariableResultRow where
  optimization_run_id : Nat
  variable_name : String
  indices : Option (List String) := none
  value : Option Val := none
  reduced_cost : Option Val := none
  lower_bound : Option Val := none
  upper_bound : Option Val := none
deriving DecidableEq, Repr

/-- Translation of the ConstraintResult ORM row. -/
structure ConstraintResultRow where
  optimization_run_id : Nat
  constraint_name : String
  indices : Option (List String) := none
  body : Option Val := none
  dual : Option Val := none
  slack : Option Val := none
  lower_bound : Option Val := none
  upper_bound : Option Val := none
deriving DecidableEq, Repr

/-- The part of the AMPLModel row that the solver routes read. -/
structure ModelRow where
  id : Nat
  model_content : String
deriving DecidableEq, Repr

/-- The part of the DataFile row that the solver routes read. -/
structure DataFileRow where
  id : Nat
  file_content : String
deriving DecidableEq, Repr

/-- One value of the in-memory _job_status dict of solver.py. -/
structure JobEntry where
  status : String
  progress : Option String := none
  result_id : Option Nat := none
  error : Option String := none
deriving DecidableEq, Repr

/-- The whole mutable world the solver routes touch: the relational tables,
the in-memory job-status dict, the id allocator of the runs table and the
logical wall clock. -/
structure SysState where
  ampl_models : List ModelRow := []
  data_files : List DataFileRow := []
  runs : List RunRow := []
  var_results : List VariableResultRow := []
  con_results : List ConstraintResultRow := []
  job_status : List (String × JobEntry) := []
  nextRunId : Nat := 1
  clock : Nat := 0
deriving DecidableEq, Repr

/-- Lookup of a run by primary key (db.query(OptimizationRun).filter(id)). -/
def findRun (runs : List RunRow) (run_id : Nat) : Option RunRow :=
  runs.find? (fun r => r.id == run_id)

/-- Apply a field update to the run with the given primary key (the ORM
attribute assignments followed by the enclosing commit). -/
def updRuns (runs : List RunRow) (run_id : Nat) (f : RunRow → RunRow) : List RunRow :=
  runs.map (fun r => if r.id == run_id then f r else r)

/-- Dict lookup in the job-status table (first binding wins, i.e. the most
recently inserted one). -/
def jobGet (tbl : List (String × JobEntry)) (job_id : String) : Option JobEntry :=
  (tbl.find? (fun kv => kv.1 == job_id)).map (fun kv => kv.2)

/-- Mutate the visible entry of a key in the job-status table; absent keys are
untouched (the routes only ever update keys they registered at submission). -/
def jobUpd (tbl : List (String × JobEntry)) (job_id : String) (f : JobEntry → JobEntry) :
    List (String × JobEntry) :=
  match tbl with
  | [] => []
  | (k, e) :: rest =>
      if k == job_id then (k, f e) :: rest else (k, e) :: jobUpd rest job_id f

/-- Rows inserted by the store-variable-results loop of _execute_solver: one
VariableResult row per entry of the reported variables map, in order. -/
def varRowsOf (run_id : Nat) (vars : List (String × List VarEntry)) :
    List VariableResultRow :=
  List.flatMap vars (fun p => p.2.map (fun v =>
    { optimization_run_id := run_id
      variable_name := p.1
      indices := v.index
      value := v.value
      reduced_cost := v.rc
      lower_bound := v.lb
      upper_bound := v.ub }))

/-- Rows inserted by the store-constraint-results loop of _execute_solver: one
ConstraintResult row per entry of the reported constraints map, in order. -/
def conRowsOf (run_id : Nat) (cons : List (String × List ConEntry)) :
    List ConstraintResultRow :=
  List.flatMap cons (fun p => p.2.map (fun c =>
    { optimization_run_id := run_id
      constraint_name := p.1
      indices := c.index
      body := c.body
      dual := c.dual
      slack := c.slack
      lower_bound := c.lb
      upper_bound := c.ub }))

/-- Translation of the SolverRunRequest schema. -/
structure SolverRunRequest where
  model_id : Nat
  data_file_id : Option Nat := none
  solver : String := "highs"
  options : List (String × String) := []
  timeout : Nat := 300
deriving DecidableEq, Repr

/-- Translation of the SolverRunResponse schema. -/
structure SolverRunResponse where
  job_id : String
  status : String
  message : String
deriving DecidableEq, Repr

/-- Translation of the SolverStatus schema returned by the status endpoint. -/
structure SolverStatus where
  job_id : String
  status : String
  progress : Option String := none
  result_id : Option Nat := none
  error : Option String := none
deriving DecidableEq, Repr

/-- The HTTPException(404) raised by the solver routes, carrying its detail
string. -/
inductive ApiError where
  | notFound (detail : String)
deriving DecidableEq, Repr

/-- The argument tuple that run_solver hands to background_tasks.add_task for
the deferred _execute_solver call. -/
structure BackgroundTask where
  job_id : String
  run_id : Nat
  model_content : String
  data_content : Option String := none
  solver : String
  options : List (String × String) := []
  timeout : Nat
deriving DecidableEq, Repr

/-- Translation of the run_solver route (POST /run).  The fresh uuid4 job
token is supplied by the environment as the job_id argument.  On a missing
model or data file the route raises 404 before creating any state; otherwise
it registers the queued status entry, durably creates the queued run (id drawn
from the table's allocator, created_at from the clock) and returns the queued
response together with the scheduled background task. -/
def run_solver (st : SysState) (request : SolverRunRequest) (job_id : String) :
    SysState × Except ApiError (SolverRunResponse × BackgroundTask) :=
  match st.ampl_models.find? (fun m => m.id == request.model_id) with
  | none => (st, .error (.notFound "Model not found"))
  | some model =>
    let data_lookup : Except ApiError (Option String) :=
      match request.data_file_id with
      | none => .ok none
      | some did =>
          match st.data_files.find? (fun d => d.id == did) with
          | none => .error (.notFound "Data file not found")
          | some data_file => .ok (some data_file.file_content)
    match data_lookup with
    | .error e => (st, .error e)
    | .ok data_content =>
      let st1 : SysState :=
        { st with job_status :=
            (job_id, { status := "queued", progress := none,
                       result_id := none, error := none }) :: st.job_status }
      let opt_run : RunRow :=
        { id := st1.nextRunId
          model_id := request.model_id
          data_file_id := request.data_file_id
          solver_name := request.solver
          solver_options := request.options
          status := "queued"
          created_at := st1.clock }
      let st2 : SysState :=
        { st1 with runs := st1.runs ++ [opt_run]
                   nextRunId := st1.nextRunId + 1
                   clock := st1.clock + 1 }
      (st2,
       .ok ({ job_id := job_id, status := "queued",
              message := "Optimization job queued" },
            { job_id := job_id
              run_id := opt_run.id
              model_content := model.model_content
              data_content := data_content
              solver := request.solver
              options := request.options
              timeout := request.timeout }))

/-- What the awaited ampl_engine.solve_model call does inside _execute_solver:
either it returns (its own try-except makes engine failures come back as an
error-status SolveResult built by solve_model), or the await itself raises and
the exception falls through to the except-branch of _execute_solver. -/
inductive AdapterOutcome where
  | result (b : EngineBehavior)
  | raise (msg : String)
deriving DecidableEq, Repr

/-- Exception text of the AttributeError hit when the run row cannot be loaded
at the start of _execute_solver (opt_run is None and opt_run.status is
assigned). -/
def noneStatusError : String := "NoneType object has no attribute status"

/-- Effect of the progress_callback closures run during the adapter call: each
invocation overwrites the progress payload of the job entry, last write
wins. -/
def applyProgress (ps : List String) (job_id : String) (st : SysState) : SysState :=
  ps.foldl
    (fun s p =>
      { s with job_status :=
          jobUpd s.job_status job_id (fun e => { e with progress := some p }) })
    st

/-- Lines 191-243 of solver.py: write the outcome fields and completion time
onto the run; on a normalized error status commit and mark the entry failed
with the run id and a truthiness-defaulted error text; otherwise bulk-insert
the variable and constraint rows, commit, and mark the entry completed with
the run id.  The returned list extends the trace of committed run-status
writes. -/
def finishRun (result : SolveResult) (job_id : String) (run_id : Nat)
    (st : SysState) (tr : List String) : SysState × List String :=
  let normalized_status := if result.status == "error" then "error" else result.status
  let st1 : SysState :=
    { st with
        runs := updRuns st.runs run_id (fun r =>
          { r with status := normalized_status
                   objective_value := result.objective_value
                   solve_time := result.solve_time
                   iterations := result.iterations
                   nodes := result.nodes
                   gap := result.gap
                   solver_output := some result.solver_output
                   error_message := result.error_message
                   completed_at := some st.clock })
        clock := st.clock + 1 }
  if normalized_status == "error" then
    ({ st1 with job_status := jobUpd st1.job_status job_id (fun e =>
        { e with status := "failed"
                 result_id := some run_id
                 error := some (pyOr result.error_message "Solver execution failed") }) },
     tr ++ ["error"])
  else
    let st2 : SysState :=
      { st1 with
          var_results := st1.var_results ++ varRowsOf run_id result.«variables»
          con_results := st1.con_results ++ conRowsOf run_id result.constraints }
    ({ st2 with job_status := jobUpd st2.job_status job_id (fun e =>
        { e with status := "completed", result_id := some run_id }) },
     tr ++ [normalized_status])

/-- The except-branch of _execute_solver (lines 245-254): mark the entry
failed with the exception text, then best-effort reload the run and, when it
is still there, write the error status, message and completion time.  The
returned list extends the trace of committed run-status writes. -/
def execHandler (job_id : String) (run_id : Nat) (msg : String)
    (st : SysState) (tr : List String) : SysState × List String :=
  let st1 : SysState :=
    { st with job_status := jobUpd st.job_status job_id (fun e =>
        { e with status := "failed", error := some msg }) }
  match findRun st1.runs run_id with
  | none => (st1, tr)
  | some _ =>
      ({ st1 with
           runs := updRuns st1.runs run_id (fun r =>
             { r with status := "error"
                      error_message := some msg
                      completed_at := some st1.clock })
           clock := st1.clock + 1 },
       tr ++ ["error"])

/-- Translation of the background task _execute_solver.  Along with the final
state it returns the ghost trace of status values committed to the durable
run, in order.  The faults covered by the try-except are the two that the
fixed statements can raise between commit points: the initial run load coming
back empty (the None attribute assignment) and the awaited adapter call
raising; both fall into execHandler, so the procedure always returns normally
instead of propagating. -/
def _execute_solver (progress : List String) (outcome : AdapterOutcome)
    (job_id : String) (run_id : Nat) (st : SysState) : SysState × List String :=
  let st1 : SysState :=
    { st with job_status := jobUpd st.job_status job_id (fun e =>
        { e with status := "running" }) }
  match findRun st1.runs run_id with
  | none => execHandler job_id run_id noneStatusError st1 []
  | some _ =>
    let st2 : SysState :=
      { st1 with
          runs := updRuns st1.runs run_id (fun r =>
            { r with status := "running", started_at := some st1.clock })
          clock := st1.clock + 1 }
    let st3 := applyProgress progress job_id st2
    match outcome with
    | .raise msg => execHandler job_id run_id msg st3 ["running"]
    | .result b => finishRun (solve_model b) job_id run_id st3 ["running"]

/-- Translation of the get_job_status route (GET /status/job_id). -/
def get_job_status (st : SysState) (job_id : String) : Except ApiError SolverStatus :=
  match jobGet st.job_status job_id with
  | none => .error (.notFound "Job not found")
  | some e =>
      .ok { job_id := job_id, status := e.status, progress := e.progress,
            result_id := e.result_id, error := e.error }

/-- Translation of the cancel_job route (POST /cancel/job_id): an unknown
token is a 404; a known token has its entry status overwritten with cancelled
and nothing else happens. -/
def cancel_job (st : SysState) (job_id : String) : SysState × Except ApiError String :=
  if (jobGet st.job_status job_id).isSome then
    ({ st with job_status := jobUpd st.job_status job_id (fun e =>
        { e with status := "cancelled" }) },
     .ok "Cancellation requested")
  else
    (st, .error (.notFound "Job not found"))

theorem jobGet_jobUpd_self (tbl : List (String × JobEntry)) (job_id : String)
    (f : JobEntry → JobEntry) :
    jobGet (jobUpd tbl job_id f) job_id = (jobGet tbl job_id).map f := by
  induction tbl with
  | nil => rfl
  | cons kv rest ih =>
      obtain ⟨k, e⟩ := kv
      by_cases hk : k == job_id
      · simp [jobUpd, jobGet, hk]
      · simp only [jobUpd, hk, Bool.false_eq_true, if_false]
        simpa [jobGet, hk] using ih

theorem jobGet_jobUpd_ne (tbl : List (String × JobEntry)) (job_id tok : String)
    (f : JobEntry → JobEntry) (h : tok ≠ job_id) :
    jobGet (jobUpd tbl job_id f) tok = jobGet tbl tok := by
  induction tbl with
  | nil => rfl
  | cons kv rest ih =>
      obtain ⟨k, e⟩ := kv
      by_cases hk : k == job_id
      · have hk' : k = job_id := by simpa [beq_iff_eq] using hk
        have hkt : (k == tok) = false := by
          simp [beq_iff_eq, hk']
          exact fun he => h he.symm
        simp [jobUpd, jobGet, hk, hkt]
      · simp only [jobUpd, hk, Bool.false_eq_true, if_false]
        by_cases hkt : k == tok
        · simp [jobGet, hkt]
        · simpa [jobGet, hkt] using ih

theorem updRuns_cons (r : RunRow) (rest : List RunRow) (i : Nat) (f : RunRow → RunRow) :
    updRuns (r :: rest) i f = (if r.id == i then f r else r) :: updRuns rest i f := rfl

theorem findRun_cons (r : RunRow) (rest : List RunRow) (i : Nat) :
    findRun (r :: rest) i = if r.id == i then some r else findRun rest i := by
  cases hr : (r.id == i) <;> simp [findRun, List.find?_cons, hr]

theorem findRun_updRuns_self (runs : List RunRow) (run_id : Nat) (f : RunRow → RunRow)
    (hf : ∀ r, (f r).id = r.id) :
    findRun (updRuns runs run_id f) run_id = (findRun runs run_id).map f := by
  induction runs with
  | nil => rfl
  | cons r rest ih =>
      rw [updRuns_cons]
      by_cases hr : (r.id == run_id) = true
      · have hfr : ((f r).id == run_id) = true := by rw [hf r]; exact hr
        rw [if_pos hr, findRun_cons, findRun_cons, if_pos hr, if_pos hfr]
        rfl
      · have hr' : (r.id == run_id) = false := by simpa using hr
        rw [if_neg (by simp [hr']), findRun_cons, findRun_cons, if_neg (by simp [hr']),
          if_neg (by simp [hr'])]
        exact ih

theorem findRun_updRuns_ne (runs : List RunRow) (run_id i : Nat) (f : RunRow → RunRow)
    (hf : ∀ r, (f r).id = r.id) (h : i ≠ run_id) :
    findRun (updRuns runs run_id f) i = findRun runs i := by
  induction runs with
  | nil => rfl
  | cons r rest ih =>
      rw [updRuns_cons, findRun_cons]
      by_cases hr : (r.id == run_id) = true
      · have hr' : r.id = run_id := by simpa [beq_iff_eq] using hr
        have hri : ((f r).id == i) = false := by
          rw [hf r]
          simp [beq_iff_eq, hr']
          exact fun he => h he.symm
        have hri' : (r.id == i) = false := by
          simp [beq_iff_eq, hr']
          exact fun he => h he.symm
        rw [if_pos hr, findRun_cons, if_neg (by simp [hri]), if_neg (by simp [hri'])]
        exact ih
      · rw [if_neg hr, findRun_cons]
        by_cases hri : (r.id == i) = true
        · rw [if_pos hri, if_pos hri]
        · rw [if_neg hri, if_neg hri]
          exact ih

theorem findRun_append (runs : List RunRow) (r : RunRow) (i : Nat) (h : r.id ≠ i) :
    findRun (runs ++ [r]) i = findRun runs i := by
  have hb : (r.id == i) = false := by simpa [beq_iff_eq] using h
  simp [findRun, List.find?_append, hb]

theorem applyProgress_proj (ps : List String) (job_id : String) (st : SysState) :
    (applyProgress ps job_id st).runs = st.runs ∧
    (applyProgress ps job_id st).var_results = st.var_results ∧
    (applyProgress ps job_id st).con_results = st.con_results ∧
    (applyProgress ps job_id st).clock = st.clock := by
  induction ps generalizing st with
  | nil => exact ⟨rfl, rfl, rfl, rfl⟩
  | cons p ps ih =>
      have h := ih { st with job_status := jobUpd st.job_status job_id (fun e => { e with progress := some p }) }
      simpa [applyProgress] using h

/-- Cumulative effect on one entry of the progress writes issued during the
adapter call. -/
def setProgAll (ps : List String) (e : JobEntry) : JobEntry :=
  ps.foldl (fun e p => { e with progress := some p }) e

theorem jobGet_applyProgress_self (ps : List String) (job_id : String) (st : SysState) :
    jobGet (applyProgress ps job_id st).job_status job_id =
      (jobGet st.job_status job_id).map (setProgAll ps) := by
  induction ps generalizing st with
  | nil =>
      cases h : jobGet st.job_status job_id <;> simp [applyProgress, setProgAll, h]
  | cons p ps ih =>
      have step := ih { st with job_status := jobUpd st.job_status job_id (fun e => { e with progress := some p }) }
      simp only [applyProgress, List.foldl_cons] at step ⊢
      rw [step, jobGet_jobUpd_self]
      cases h : jobGet st.job_status job_id <;> simp [setProgAll, h]

theorem setProgAll_status (ps : List String) (e : JobEntry) :
    (setProgAll ps e).status = e.status := by
  induction ps generalizing e with
  | nil => rfl
  | cons p ps ih => simpa [setProgAll] using ih { e with progress := some p }

theorem setProgAll_result_id (ps : List String) (e : JobEntry) :
    (setProgAll ps e).result_id = e.result_id := by
  induction ps generalizing e with
  | nil => rfl
  | cons p ps ih => simpa [setProgAll] using ih { e with progress := some p }

theorem setProgAll_error (ps : List String) (e : JobEntry) :
    (setProgAll ps e).error = e.error := by
  induction ps generalizing e with
  | nil => rfl
  | cons p ps ih => simpa [setProgAll] using ih { e with progress := some p }

theorem normalize_status_mem (s : String) :
    normalize_status s ∈ adapterStatuses := by
  simp only [normalize_status, adapterStatuses]
  split
  · simp
  · split
    · simp
    · split
      · simp
      · split
        · simp
        · simp

theorem get_solve_status_mem (raw : Option String) :
    get_solve_status raw ∈ adapterStatuses := by
  unfold get_solve_status
  repeat' split
  all_goals first
    | exact normalize_status_mem _
    | simp [adapterStatuses]

theorem solve_model_status_mem (b : EngineBehavior) :
    (solve_model b).status ∈ adapterStatuses := by
  cases b with
  | raises msg => simp [solve_model, adapterStatuses]
  | ok e => simpa [solve_model] using get_solve_status_mem e.raw_solve_result

theorem pyOr_ne_empty (a : Option String) (d : String) (hd : d ≠ "") :
    pyOr a d ≠ "" := by
  cases a with
  | none => simpa [pyOr] using hd
  | some s =>
      by_cases hs : s = "" <;> simp [pyOr, hs, hd]

theorem varRowsOf_pairs (run_id : Nat) (vars : List (String × List VarEntry)) :
    (varRowsOf run_id vars).map (fun w => (w.variable_name, w.indices)) =
      List.flatMap vars (fun p => p.2.map (fun v => (p.1, v.index))) := by
  induction vars with
  | nil => rfl
  | cons p rest ih =>
      simp only [varRowsOf] at ih
      simp only [varRowsOf, List.flatMap_cons, List.map_append, ih]
      simp [List.map_map, Function.comp]

theorem conRowsOf_pairs (run_id : Nat) (cons : List (String × List ConEntry)) :
    (conRowsOf run_id cons).map (fun w => (w.constraint_name, w.indices)) =
      List.flatMap cons (fun p => p.2.map (fun c => (p.1, c.index))) := by
  induction cons with
  | nil => rfl
  | cons p rest ih =>
      simp only [conRowsOf] at ih
      simp only [conRowsOf, List.flatMap_cons, List.map_append, ih]
      simp [List.map_map, Function.comp]

theorem applyProgress_runs (ps : List String) (job_id : String) (st : SysState) :
    (applyProgress ps job_id st).runs = st.runs :=
  (applyProgress_proj ps job_id st).1

theorem applyProgress_vars (ps : List String) (job_id : String) (st : SysState) :
    (applyProgress ps job_id st).var_results = st.var_results :=
  (applyProgress_proj ps job_id st).2.1

theorem applyProgress_cons (ps : List String) (job_id : String) (st : SysState) :
    (applyProgress ps job_id st).con_results = st.con_results :=
  (applyProgress_proj ps job_id st).2.2.1

theorem applyProgress_clock (ps : List String) (job_id : String) (st : SysState) :
    (applyProgress ps job_id st).clock = st.clock :=
  (applyProgress_proj ps job_id st).2.2.2

theorem exec_success_spec (progress : List String) (b : EngineBehavior)
    (job_id : String) (run_id : Nat) (st : SysState) (run0 : RunRow)
    (hrun : findRun st.runs run_id = some run0)
    (hok : ((solve_model b).status == "error") = false) :
    (_execute_solver progress (.result b) job_id run_id st).2 =
        ["running", (solve_model b).status] ∧
    findRun (_execute_solver progress (.result b) job_id run_id st).1.runs run_id =
      some { run0 with
               status := (solve_model b).status
               objective_value := (solve_model b).objective_value
               solve_time := (solve_model b).solve_time
               iterations := (solve_model b).iterations
               nodes := (solve_model b).nodes
               gap := (solve_model b).gap
               solver_output := some (solve_model b).solver_output
               error_message := (solve_model b).error_message
               started_at := some st.clock
               completed_at := some (st.clock + 1) } ∧
    (_execute_solver progress (.result b) job_id run_id st).1.var_results =
      st.var_results ++ varRowsOf run_id (solve_model b).«variables» ∧
    (_execute_solver progress (.result b) job_id run_id st).1.con_results =
      st.con_results ++ conRowsOf run_id (solve_model b).constraints ∧
    jobGet (_execute_solver progress (.result b) job_id run_id st).1.job_status job_id =
      (jobGet st.job_status job_id).map (fun e =>
        { setProgAll progress { e with status := "running" } with
            status := "completed", result_id := some run_id }) := by
  simp only [_execute_solver, finishRun, hrun, hok, Bool.false_eq_true, if_false,
    applyProgress_runs, applyProgress_vars, applyProgress_cons, applyProgress_clock,
    jobGet_applyProgress_self, jobGet_jobUpd_self, Option.map_map]
  refine ⟨rfl, ?_, trivial, trivial, ?_⟩
  · simp [findRun_updRuns_self, hrun]
  · cases hj : jobGet st.job_status job_id <;> simp [setProgAll]

theorem exec_error_spec (progress : List String) (b : EngineBehavior)
    (job_id : String) (run_id : Nat) (st : SysState) (run0 : RunRow)
    (hrun : findRun st.runs run_id = some run0)
    (herr : (solve_model b).status = "error") :
    (_execute_solver progress (.result b) job_id run_id st).2 = ["running", "error"] ∧
    findRun (_execute_solver progress (.result b) job_id run_id st).1.runs run_id =
      some { run0 with
               status := "error"
               objective_value := (solve_model b).objective_value
               solve_time := (solve_model b).solve_time
               iterations := (solve_model b).iterations
               nodes := (solve_model b).nodes
               gap := (solve_model b).gap
               solver_output := some (solve_model b).solver_output
               error_message := (solve_model b).error_message
               started_at := some st.clock
               completed_at := some (st.clock + 1) } ∧
    (_execute_solver progress (.result b) job_id run_id st).1.var_results =
      st.var_results ∧
    (_execute_solver progress (.result b) job_id run_id st).1.con_results =
      st.con_results ∧
    jobGet (_execute_solver progress (.result b) job_id run_id st).1.job_status job_id =
      (jobGet st.job_status job_id).map (fun e =>
        { setProgAll progress { e with status := "running" } with
            status := "failed"
            result_id := some run_id
            error := some (pyOr (solve_model b).error_message "Solver execution failed") }) := by
  simp only [_execute_solver, finishRun, hrun, herr, beq_self_eq_true, if_true,
    applyProgress_runs, applyProgress_vars, applyProgress_cons, applyProgress_clock,
    jobGet_applyProgress_self, jobGet_jobUpd_self, Option.map_map]
  refine ⟨rfl, ?_, trivial, trivial, ?_⟩
  · simp [findRun_updRuns_self, hrun]
  · cases hj : jobGet st.job_status job_id <;> simp [setProgAll]

theorem exec_raise_spec (progress : List String) (msg : String)
    (job_id : String) (run_id : Nat) (st : SysState) (run0 : RunRow)
    (hrun : findRun st.runs run_id = some run0) :
    (_execute_solver progress (.raise msg) job_id run_id st).2 = ["running", "error"] ∧
    findRun (_execute_solver progress (.raise msg) job_id run_id st).1.runs run_id =
      some { run0 with
               status := "error"
               error_message := some msg
               started_at := some st.clock
               completed_at := some (st.clock + 1) } ∧
    (_execute_solver progress (.raise msg) job_id run_id st).1.var_results =
      st.var_results ∧
    (_execute_solver progress (.raise msg) job_id run_id st).1.con_results =
      st.con_results ∧
    jobGet (_execute_solver progress (.raise msg) job_id run_id st).1.job_status job_id =
      (jobGet st.job_status job_id).map (fun e =>
        { setProgAll progress { e with status := "running" } with
            status := "failed", error := some msg }) := by
  simp only [_execute_solver, execHandler, hrun,
    applyProgress_runs, applyProgress_vars, applyProgress_cons, applyProgress_clock,
    jobGet_applyProgress_self, jobGet_jobUpd_self, Option.map_map]
  have hfind : findRun (updRuns st.runs run_id
      (fun r => { r with status := "running", started_at := some st.clock })) run_id =
      some { run0 with status := "running", started_at := some st.clock } := by
    simp [findRun_updRuns_self, hrun]
  simp only [hfind]
  refine ⟨rfl, ?_, trivial, trivial, ?_⟩
  · simp [findRun_updRuns_self, hrun]
  · cases hj : jobGet st.job_status job_id <;>
      simp [hj, jobGet_jobUpd_self, jobGet_applyProgress_self, setProgAll]

theorem exec_notfound_spec (progress : List String) (outcome : AdapterOutcome)
    (job_id : String) (run_id : Nat) (st : SysState)
    (hrun : findRun st.runs run_id = none) :
    (_execute_solver progress outcome job_id run_id st).2 = [] ∧
    (_execute_solver progress outcome job_id run_id st).1.runs = st.runs ∧
    (_execute_solver progress outcome job_id run_id st).1.var_results = st.var_results ∧
    (_execute_solver progress outcome job_id run_id st).1.con_results = st.con_results ∧
    jobGet (_execute_solver progress outcome job_id run_id st).1.job_status job_id =
      (jobGet st.job_status job_id).map (fun e =>
        { e with status := "failed", error := some noneStatusError }) := by
  simp only [_execute_solver, execHandler, hrun, jobGet_jobUpd_self, Option.map_map]
  refine ⟨trivial, trivial, trivial, trivial, ?_⟩
  cases hj : jobGet st.job_status job_id <;> simp [hj]

theorem exec_other_run (progress : List String) (outcome : AdapterOutcome)
    (job_id : String) (run_id : Nat) (st : SysState) (i : Nat) (hi : i ≠ run_id) :
    findRun (_execute_solver progress outcome job_id run_id st).1.runs i =
      findRun st.runs i := by
  cases h : findRun st.runs run_id with
  | none => rw [(exec_notfound_spec progress outcome job_id run_id st h).2.1]
  | some run0 =>
      cases outcome with
      | raise msg =>
          simp only [_execute_solver, execHandler, h, applyProgress_runs,
            applyProgress_clock]
          have hfind : findRun (updRuns st.runs run_id
              (fun r => { r with status := "running", started_at := some st.clock })) run_id =
              some { run0 with status := "running", started_at := some st.clock } := by
            simp [findRun_updRuns_self, h]
          simp only [hfind]
          simp [findRun_updRuns_ne, hi]
      | result b =>
          simp only [_execute_solver, finishRun, h, applyProgress_runs,
            applyProgress_clock]
          split <;> simp [findRun_updRuns_ne, hi]

theorem exec_db_irrel (progress : List String) (outcome : AdapterOutcome)
    (job_id : String) (run_id : Nat) (st : SysState) (J : List (String × JobEntry)) :
    (_execute_solver progress outcome job_id run_id { st with job_status := J }).1.runs =
      (_execute_solver progress outcome job_id run_id st).1.runs ∧
    (_execute_solver progress outcome job_id run_id { st with job_status := J }).1.var_results =
      (_execute_solver progress outcome job_id run_id st).1.var_results ∧
    (_execute_solver progress outcome job_id run_id { st with job_status := J }).1.con_results =
      (_execute_solver progress outcome job_id run_id st).1.con_results ∧
    (_execute_solver progress outcome job_id run_id { st with job_status := J }).2 =
      (_execute_solver progress outcome job_id run_id st).2 := by
  cases h : findRun st.runs run_id with
  | none =>
      obtain ⟨t1, r1, v1, c1, j1⟩ := exec_notfound_spec progress outcome job_id run_id st h
      obtain ⟨t2, r2, v2, c2, j2⟩ := exec_notfound_spec progress outcome job_id run_id
        { st with job_status := J } h
      exact ⟨by rw [r1, r2], by rw [v1, v2], by rw [c1, c2], by rw [t1, t2]⟩
  | some run0 =>
      cases outcome with
      | raise msg =>
          simp only [_execute_solver, execHandler, h, applyProgress_runs,
            applyProgress_vars, applyProgress_cons, applyProgress_clock]
          have hfind : findRun (updRuns st.runs run_id
              (fun r => { r with status := "running", started_at := some st.clock })) run_id =
              some { run0 with status := "running", started_at := some st.clock } := by
            simp [findRun_updRuns_self, h]
          simp only [hfind]
          refine ⟨?_, ?_, ?_, ?_⟩ <;> trivial
      | result b =>
          simp only [_execute_solver, finishRun, h, applyProgress_runs,
            applyProgress_vars, applyProgress_cons, applyProgress_clock]
          split <;> (refine ⟨?_, ?_, ?_, ?_⟩ <;> trivial)

theorem run_solver_model_missing (st : SysState) (request : SolverRunRequest)
    (job_id : String)
    (h : st.ampl_models.find? (fun m => m.id == request.model_id) = none) :
    run_solver st request job_id = (st, .error (.notFound "Model not found")) := by
  simp [run_solver, h]

theorem run_solver_datafile_missing (st : SysState) (request : SolverRunRequest)
    (job_id : String) (model : ModelRow) (did : Nat)
    (hm : st.ampl_models.find? (fun m => m.id == request.model_id) = some model)
    (hd : request.data_file_id = some did)
    (hdf : st.data_files.find? (fun d => d.id == did) = none) :
    run_solver st request job_id = (st, .error (.notFound "Data file not found")) := by
  simp [run_solver, hm, hd, hdf]

theorem run_solver_runs_shape (st : SysState) (request : SolverRunRequest)
    (job_id : String) :
    (run_solver st request job_id).1.runs = st.runs ∨
    (run_solver st request job_id).1.runs = st.runs ++
      [{ id := st.nextRunId
         model_id := request.model_id
         data_file_id := request.data_file_id
         solver_name := request.solver
         solver_options := request.options
         status := "queued"
         created_at := st.clock }] := by
  cases hm : st.ampl_models.find? (fun m => m.id == request.model_id) with
  | none => exact Or.inl (by simp [run_solver, hm])
  | some model =>
      cases hd : request.data_file_id with
      | none => exact Or.inr (by simp [run_solver, hm, hd])
      | some did =>
          cases hdf : st.data_files.find? (fun d => d.id == did) with
          | none => exact Or.inl (by simp [run_solver, hm, hd, hdf])
          | some data_file => exact Or.inr (by simp [run_solver, hm, hd, hdf])

theorem run_solver_other_run (st : SysState) (request : SolverRunRequest)
    (job_id : String) (i : Nat) (hi : i ≠ st.nextRunId) :
    findRun (run_solver st request job_id).1.runs i = findRun st.runs i := by
  cases run_solver_runs_shape st request job_id with
  | inl h => rw [h]
  | inr h => rw [h, findRun_append _ _ _ (fun he => hi he.symm)]

theorem cancel_known_spec (st : SysState) (job_id : String) (e0 : JobEntry)
    (h : jobGet st.job_status job_id = some e0) :
    cancel_job st job_id =
      ({ st with job_status := jobUpd st.job_status job_id (fun e => { e with status := "cancelled" }) },
       .ok "Cancellation requested") := by
  simp [cancel_job, h]

theorem cancel_unknown_spec (st : SysState) (job_id : String)
    (h : jobGet st.job_status job_id = none) :
    cancel_job st job_id = (st, .error (.notFound "Job not found")) := by
  simp [cancel_job, h]

/-- Concrete job entry used by the witness theorems. -/
def entryFix : JobEntry := { status := "queued" }

/-- Concrete queued run row used by the witness theorems. -/
def runFix : RunRow := { id := 1, model_id := 1, solver_name := "highs", status := "queued" }

/-- Concrete system state used by the witness theorems: one model, one queued
run and one registered job token. -/
def stFix : SysState :=
  { ampl_models := [{ id := 1, model_content := "var x;" }]
    runs := [runFix]
    job_status := [("tok", entryFix)]
    nextRunId := 2
    clock := 1 }

/-- Concrete engine behaviour reporting a solved run with one variable
instance. -/
def engFix : EngineRun :=
  { raw_solve_result := some "solved"
    objective := some 42
    output := "ok"
    «variables» := [("x", [{ index := none, value := some 1 }])] }

/-- C1: when the adapter returns an outcome whose status is not error, the
durable run receives that normalized status (one of the four result-bearing
values), the objective value, solve time, iterations, nodes, gap and raw
solver output, exactly one VariableResult row is appended per reported
(variable name, index) entry and one ConstraintResult row per reported
(constraint name, index) entry, and the in-memory entry for the job token
becomes completed with the run id attached. -/
theorem C1_nonerror_outcome_persists_results
    (progress : List String) (b : EngineBehavior) (job_id : String) (run_id : Nat)
    (st : SysState) (e0 : JobEntry) (run0 : RunRow)
    (hjob : jobGet st.job_status job_id = some e0)
    (hrun : findRun st.runs run_id = some run0)
    (hok : (solve_model b).status ≠ "error") :
    (∃ run1, findRun (_execute_solver progress (.result b) job_id run_id st).1.runs run_id =
        some run1 ∧
      run1.status = (solve_model b).status ∧
      run1.status ∈ resultBearingStatuses ∧
      run1.objective_value = (solve_model b).objective_value ∧
      run1.solve_time = (solve_model b).solve_time ∧
      run1.iterations = (solve_model b).iterations ∧
      run1.nodes = (solve_model b).nodes ∧
      run1.gap = (solve_model b).gap ∧
      run1.solver_output = some (solve_model b).solver_output ∧
      run1.completed_at.isSome = true) ∧
    (_execute_solver progress (.result b) job_id run_id st).1.var_results =
      st.var_results ++ varRowsOf run_id (solve_model b).«variables» ∧
    (_execute_solver progress (.result b) job_id run_id st).1.con_results =
      st.con_results ++ conRowsOf run_id (solve_model b).constraints ∧
    (varRowsOf run_id (solve_model b).«variables»).map (fun w => (w.variable_name, w.indices)) =
      List.flatMap (solve_model b).«variables» (fun p => p.2.map (fun v => (p.1, v.index))) ∧
    (conRowsOf run_id (solve_model b).constraints).map (fun w => (w.constraint_name, w.indices)) =
      List.flatMap (solve_model b).constraints (fun p => p.2.map (fun c => (p.1, c.index))) ∧
    (∃ e1, jobGet (_execute_solver progress (.result b) job_id run_id st).1.job_status job_id =
        some e1 ∧
      e1.status = "completed" ∧ e1.result_id = some run_id) := by
  have hok' : ((solve_model b).status == "error") = false := by
    simpa using hok
  obtain ⟨htr, hfind, hv, hc, hjg⟩ := exec_success_spec progress b job_id run_id st run0 hrun hok'
  have hmem : (solve_model b).status ∈ resultBearingStatuses := by
    have hm := solve_model_status_mem b
    simp only [adapterStatuses, List.mem_cons, List.not_mem_nil, or_false] at hm
    simp only [resultBearingStatuses, List.mem_cons, List.not_mem_nil, or_false]
    tauto
  refine ⟨⟨_, hfind, rfl, hmem, rfl, rfl, rfl, rfl, rfl, rfl, rfl⟩, hv, hc,
    varRowsOf_pairs _ _, conRowsOf_pairs _ _, ?_⟩
  refine ⟨_, by rw [hjg, hjob]; rfl, rfl, rfl⟩

/-- C1 witness: the success path evaluated on the concrete fixture marks the
token completed with the run id attached. -/
theorem C1_witness :
    ∃ e1, jobGet (_execute_solver [] (.result (.ok engFix)) "tok" 1 stFix).1.job_status
        "tok" = some e1 ∧
      e1.status = "completed" ∧ e1.result_id = some 1 :=
  (C1_nonerror_outcome_persists_results [] (.ok engFix) "tok" 1 stFix entryFix runFix
    (by decide) (by decide) (by decide)).2.2.2.2.2

/-- C2: when the adapter returns an error outcome, the durable run ends with
status error, the outcome's error message and a completion timestamp, no
VariableResult or ConstraintResult row is appended, and the in-memory entry
reads failed with a non-empty error message. -/
theorem C2_error_outcome_persists_no_rows
    (progress : List String) (b : EngineBehavior) (job_id : String) (run_id : Nat)
    (st : SysState) (e0 : JobEntry) (run0 : RunRow)
    (hjob : jobGet st.job_status job_id = some e0)
    (hrun : findRun st.runs run_id = some run0)
    (herr : (solve_model b).status = "error") :
    (∃ run1, findRun (_execute_solver progress (.result b) job_id run_id st).1.runs run_id =
        some run1 ∧
      run1.status = "error" ∧
      run1.error_message = (solve_model b).error_message ∧
      run1.completed_at.isSome = true) ∧
    (_execute_solver progress (.result b) job_id run_id st).1.var_results = st.var_results ∧
    (_execute_solver progress (.result b) job_id run_id st).1.con_results = st.con_results ∧
    (∃ e1, jobGet (_execute_solver progress (.result b) job_id run_id st).1.job_status job_id =
        some e1 ∧
      e1.status = "failed" ∧ e1.result_id = some run_id ∧
      ∃ msg, e1.error = some msg ∧ msg ≠ "") := by
  obtain ⟨htr, hfind, hv, hc, hjg⟩ := exec_error_spec progress b job_id run_id st run0 hrun herr
  refine ⟨⟨_, hfind, rfl, rfl, rfl⟩, hv, hc, ?_⟩
  refine ⟨_, by rw [hjg, hjob]; rfl, rfl, rfl, pyOr (solve_model b).error_message
    "Solver execution failed", rfl, pyOr_ne_empty _ _ (by decide)⟩

/-- C2 witness: an adapter error outcome on the concrete fixture leaves the
result tables untouched. -/
theorem C2_witness :
    (_execute_solver [] (.result (.raises "solver crashed")) "tok" 1 stFix).1.var_results =
      stFix.var_results ∧
    (_execute_solver [] (.result (.raises "solver crashed")) "tok" 1 stFix).1.con_results =
      stFix.con_results :=
  ⟨(C2_error_outcome_persists_no_rows [] (.raises "solver crashed") "tok" 1 stFix
      entryFix runFix (by decide) (by decide) (by decide)).2.1,
   (C2_error_outcome_persists_no_rows [] (.raises "solver crashed") "tok" 1 stFix
      entryFix runFix (by decide) (by decide) (by decide)).2.2.1⟩

/-- Does the state hold any persisted result row owned by the given run. -/
def rowsExistFor (st : SysState) (run_id : Nat) : Bool :=
  st.var_results.any (fun w => w.optimization_run_id == run_id) ||
  st.con_results.any (fun w => w.optimization_run_id == run_id)

/-- Is the given run present with a result-bearing terminal status. -/
def runResultBearing (st : SysState) (run_id : Nat) : Bool :=
  match findRun st.runs run_id with
  | some r => decide (r.status ∈ resultBearingStatuses)
  | none => false

/-- Engine behaviour reporting a solved run with empty variable and
constraint maps, as in the success scenario of the spec. -/
def engEmptyFix : EngineRun := { raw_solve_result := some "solved" }

theorem solve_model_status_result_bearing (b : EngineBehavior)
    (hok : (solve_model b).status ≠ "error") :
    (solve_model b).status ∈ resultBearingStatuses := by
  have hm := solve_model_status_mem b
  simp only [adapterStatuses, List.mem_cons, List.not_mem_nil, or_false] at hm
  simp only [resultBearingStatuses, List.mem_cons, List.not_mem_nil, or_false]
  tauto

/-- C3 counterexample: an execution whose adapter outcome is optimal with
empty variable and constraint maps leaves the run in the result-bearing
status optimal while zero result rows exist for it, refuting the
if-and-only-if as stated. -/
theorem C3_counterexample :
    ¬ (rowsExistFor (_execute_solver [] (.result (.ok engEmptyFix)) "tok" 1 stFix).1 1 = true ↔
       runResultBearing (_execute_solver [] (.result (.ok engEmptyFix)) "tok" 1 stFix).1 1 = true) := by
  decide

/-- C3 amended: result rows are appended for a run by the background
procedure only when its terminal status is result-bearing; an execution whose
run ends in error status, including the uncaught-exception path, appends no
VariableResult and no ConstraintResult row. -/
theorem C3_rows_only_for_result_bearing
    (progress : List String) (outcome : AdapterOutcome) (job_id : String)
    (run_id : Nat) (st : SysState) :
    ((_execute_solver progress outcome job_id run_id st).1.var_results ≠ st.var_results ∨
     (_execute_solver progress outcome job_id run_id st).1.con_results ≠ st.con_results →
      ∃ run1, findRun (_execute_solver progress outcome job_id run_id st).1.runs run_id =
          some run1 ∧ run1.status ∈ resultBearingStatuses) ∧
    (∀ run1, findRun (_execute_solver progress outcome job_id run_id st).1.runs run_id =
        some run1 → run1.status = "error" →
      (_execute_solver progress outcome job_id run_id st).1.var_results = st.var_results ∧
      (_execute_solver progress outcome job_id run_id st).1.con_results = st.con_results) := by
  cases h : findRun st.runs run_id with
  | none =>
      obtain ⟨ht, hr, hv, hc, hj⟩ := exec_notfound_spec progress outcome job_id run_id st h
      refine ⟨fun hne => ?_, fun run1 hfind1 hstat => ⟨hv, hc⟩⟩
      rcases hne with hne | hne
      · exact absurd hv hne
      · exact absurd hc hne
  | some run0 =>
      cases outcome with
      | raise msg =>
          obtain ⟨ht, hfind, hv, hc, hj⟩ := exec_raise_spec progress msg job_id run_id st run0 h
          refine ⟨fun hne => ?_, fun run1 hfind1 hstat => ⟨hv, hc⟩⟩
          rcases hne with hne | hne
          · exact absurd hv hne
          · exact absurd hc hne
      | result b =>
          by_cases herr : (solve_model b).status = "error"
          · obtain ⟨ht, hfind, hv, hc, hj⟩ :=
              exec_error_spec progress b job_id run_id st run0 h herr
            refine ⟨fun hne => ?_, fun run1 hfind1 hstat => ⟨hv, hc⟩⟩
            rcases hne with hne | hne
            · exact absurd hv hne
            · exact absurd hc hne
          · have hok' : ((solve_model b).status == "error") = false := by simpa using herr
            obtain ⟨ht, hfind, hv, hc, hj⟩ :=
              exec_success_spec progress b job_id run_id st run0 h hok'
            refine ⟨fun _ => ⟨_, hfind, solve_model_status_result_bearing b herr⟩,
              fun run1 hfind1 hstat => ?_⟩
            rw [hfind] at hfind1
            cases hfind1
            exact absurd hstat herr

/-- C3 witness: the uncaught-exception path on the concrete fixture ends in
error status and appends no result rows. -/
theorem C3_witness :
    (_execute_solver [] (.raise "crashed") "tok" 1 stFix).1.var_results =
      stFix.var_results ∧
    (_execute_solver [] (.raise "crashed") "tok" 1 stFix).1.con_results =
      stFix.con_results :=
  (C3_rows_only_for_result_bearing [] (.raise "crashed") "tok" 1 stFix).2
    { runFix with status := "error", error_message := some "crashed", started_at := some 1, completed_at := some 2 }
    (by decide) (by decide)

/-- C4: an uncaught exception during the background procedure is absorbed by
its except branch (the translated procedure is a total function that always
returns a final state): the in-memory entry becomes failed with the exception
text, and when the run can still be loaded it is written with error status,
the exception text and a completion timestamp; when it cannot be loaded, the
durable tables are left untouched. -/
theorem C4_uncaught_exception_contained :
    (∀ (progress : List String) (msg job_id : String) (run_id : Nat) (st : SysState)
        (e0 : JobEntry) (run0 : RunRow),
      jobGet st.job_status job_id = some e0 →
      findRun st.runs run_id = some run0 →
      (∃ e1, jobGet (_execute_solver progress (.raise msg) job_id run_id st).1.job_status
          job_id = some e1 ∧
        e1.status = "failed" ∧ e1.error = some msg) ∧
      (∃ run1, findRun (_execute_solver progress (.raise msg) job_id run_id st).1.runs
          run_id = some run1 ∧
        run1.status = "error" ∧ run1.error_message = some msg ∧
        run1.completed_at.isSome = true)) ∧
    (∀ (progress : List String) (outcome : AdapterOutcome) (job_id : String)
        (run_id : Nat) (st : SysState) (e0 : JobEntry),
      jobGet st.job_status job_id = some e0 →
      findRun st.runs run_id = none →
      (∃ e1, jobGet (_execute_solver progress outcome job_id run_id st).1.job_status
          job_id = some e1 ∧
        e1.status = "failed" ∧ e1.error = some noneStatusError) ∧
      (_execute_solver progress outcome job_id run_id st).1.runs = st.runs ∧
      (_execute_solver progress outcome job_id run_id st).1.var_results = st.var_results ∧
      (_execute_solver progress outcome job_id run_id st).1.con_results = st.con_results) := by
  constructor
  · intro progress msg job_id run_id st e0 run0 hjob hrun
    obtain ⟨ht, hfind, hv, hc, hj⟩ := exec_raise_spec progress msg job_id run_id st run0 hrun
    exact ⟨⟨_, by rw [hj, hjob]; rfl, rfl, rfl⟩, ⟨_, hfind, rfl, rfl, rfl⟩⟩
  · intro progress outcome job_id run_id st e0 hjob hrun
    obtain ⟨ht, hr, hv, hc, hj⟩ := exec_notfound_spec progress outcome job_id run_id st hrun
    exact ⟨⟨_, by rw [hj, hjob]; rfl, rfl, rfl⟩, hr, hv, hc⟩

/-- C4 witness: the raise path on the concrete fixture marks the token failed
with the exception text. -/
theorem C4_witness :
    ∃ e1, jobGet (_execute_solver [] (.raise "boom") "tok" 1 stFix).1.job_status
        "tok" = some e1 ∧
      e1.status = "failed" ∧ e1.error = some "boom" :=
  (C4_uncaught_exception_contained.1 [] "boom" "tok" 1 stFix entryFix runFix
    (by decide) (by decide)).1

/-- C5: whenever the run row is present at the start of the background
procedure, the trace of statuses committed to the durable run is exactly one
running write followed by exactly one terminal write; and no other operation
of the subsystem mutates an existing run: cancel_job never touches the
relational tables, run_solver only appends a fresh row, and an execution for
a different run id leaves the row unchanged. -/
theorem C5_single_running_single_terminal :
    (∀ (progress : List String) (outcome : AdapterOutcome) (job_id : String)
        (run_id : Nat) (st : SysState) (run0 : RunRow),
      findRun st.runs run_id = some run0 →
      ∃ t, (_execute_solver progress outcome job_id run_id st).2 = ["running", t] ∧
        t ∈ adapterStatuses ∧
        ((_execute_solver progress outcome job_id run_id st).2.count "running" ≤ 1) ∧
        ((_execute_solver progress outcome job_id run_id st).2.countP
          (fun s => decide (s ∈ adapterStatuses)) = 1)) ∧
    (∀ (st : SysState) (job_id : String),
      (cancel_job st job_id).1.runs = st.runs ∧
      (cancel_job st job_id).1.var_results = st.var_results ∧
      (cancel_job st job_id).1.con_results = st.con_results) ∧
    (∀ (st : SysState) (request : SolverRunRequest) (job_id : String) (i : Nat),
      i ≠ st.nextRunId →
      findRun (run_solver st request job_id).1.runs i = findRun st.runs i) ∧
    (∀ (progress : List String) (outcome : AdapterOutcome) (job_id : String)
        (run_id : Nat) (st : SysState) (i : Nat),
      i ≠ run_id →
      findRun (_execute_solver progress outcome job_id run_id st).1.runs i =
        findRun st.runs i) := by
  have hcount : ∀ t, t ∈ adapterStatuses →
      (["running", t].count "running" ≤ 1 ∧
       List.countP (fun s => decide (s ∈ adapterStatuses)) ["running", t] = 1) := by
    intro t ht
    fin_cases ht <;> exact ⟨by decide, by decide⟩
  refine ⟨?_, ?_, ?_, ?_⟩
  · intro progress outcome job_id run_id st run0 hrun
    cases outcome with
    | raise msg =>
        obtain ⟨ht, _, _, _, _⟩ := exec_raise_spec progress msg job_id run_id st run0 hrun
        have hm : "error" ∈ adapterStatuses := by simp [adapterStatuses]
        refine ⟨"error", ht, hm, ?_, ?_⟩
        · rw [ht]; exact (hcount "error" hm).1
        · rw [ht]; exact (hcount "error" hm).2
    | result b =>
        by_cases herr : (solve_model b).status = "error"
        · obtain ⟨ht, _, _, _, _⟩ := exec_error_spec progress b job_id run_id st run0 hrun herr
          have hm : "error" ∈ adapterStatuses := by simp [adapterStatuses]
          refine ⟨"error", ht, hm, ?_, ?_⟩
          · rw [ht]; exact (hcount "error" hm).1
          · rw [ht]; exact (hcount "error" hm).2
        · have hok' : ((solve_model b).status == "error") = false := by simpa using herr
          obtain ⟨ht, _, _, _, _⟩ := exec_success_spec progress b job_id run_id st run0 hrun hok'
          have hm : (solve_model b).status ∈ adapterStatuses := solve_model_status_mem b
          refine ⟨(solve_model b).status, ht, hm, ?_, ?_⟩
          · rw [ht]; exact (hcount _ hm).1
          · rw [ht]; exact (hcount _ hm).2
  · intro st job_id
    by_cases h : (jobGet st.job_status job_id).isSome <;>
      simp [cancel_job, h]
  · intro st request job_id i hi
    exact run_solver_other_run st request job_id i hi
  · intro progress outcome job_id run_id st i hi
    exact exec_other_run progress outcome job_id run_id st i hi

/-- C5 witness: on the concrete fixture the committed status trace is the
running write followed by the single terminal optimal write. -/
theorem C5_witness :
    ∃ t, (_execute_solver [] (.result (.ok engFix)) "tok" 1 stFix).2 = ["running", t] ∧
      t ∈ adapterStatuses ∧
      ((_execute_solver [] (.result (.ok engFix)) "tok" 1 stFix).2.count "running" ≤ 1) ∧
      ((_execute_solver [] (.result (.ok engFix)) "tok" 1 stFix).2.countP
        (fun s => decide (s ∈ adapterStatuses)) = 1) :=
  C5_single_running_single_terminal.1 [] (.result (.ok engFix)) "tok" 1 stFix runFix
    (by decide)

/-- C6: submitting with a nonexistent model id, or with a nonexistent data
file id, fails with the 404 and returns the state unchanged: no run row and
no status-table entry is created. -/
theorem C6_submit_notfound_creates_nothing :
    (∀ (st : SysState) (request : SolverRunRequest) (job_id : String),
      st.ampl_models.find? (fun m => m.id == request.model_id) = none →
      run_solver st request job_id = (st, .error (.notFound "Model not found"))) ∧
    (∀ (st : SysState) (request : SolverRunRequest) (job_id : String)
        (model : ModelRow) (did : Nat),
      st.ampl_models.find? (fun m => m.id == request.model_id) = some model →
      request.data_file_id = some did →
      st.data_files.find? (fun d => d.id == did) = none →
      run_solver st request job_id = (st, .error (.notFound "Data file not found"))) :=
  ⟨fun st request job_id h => run_solver_model_missing st request job_id h,
   fun st request job_id model did hm hd hdf =>
     run_solver_datafile_missing st request job_id model did hm hd hdf⟩

/-- C6 witness: submitting against the fixture with an unknown model id
returns 404 and the unchanged state. -/
theorem C6_witness :
    run_solver stFix { model_id := 99 } "tok2" =
      (stFix, .error (.notFound "Model not found")) :=
  C6_submit_notfound_creates_nothing.1 stFix { model_id := 99 } "tok2" (by decide)

theorem containsTok_mono (s t u : String) (htu : t.data <:+: u.data)
    (h : containsTok s u = true) : containsTok s t = true := by
  simp only [containsTok, decide_eq_true_eq] at h ⊢
  exact htu.trans h

/-- C7: the adapter's status is always one of the five normalized values; an
exception during solving yields error; an unreadable or empty raw status
yields unknown; and the normalization maps a raw status by ordered substring
tests on its stripped lowercased form: solved or optimal to optimal, then
infeasible, then unbounded, then error or fail to error, anything else to
unknown. -/
theorem C7_adapter_status_normalization :
    (∀ b, (solve_model b).status ∈ adapterStatuses) ∧
    (∀ msg, (solve_model (.raises msg)).status = "error") ∧
    (∀ e : EngineRun, e.raw_solve_result = none →
      (solve_model (.ok e)).status = "unknown") ∧
    (∀ e : EngineRun, e.raw_solve_result = some "" →
      (solve_model (.ok e)).status = "unknown") ∧
    (∀ (e : EngineRun) (s : String), e.raw_solve_result = some s → s ≠ "" →
      (solve_model (.ok e)).status = normalize_status s) ∧
    (∀ s : String,
      containsTok (pyLower (pyStrip s)) "solved" = true ∨
      containsTok (pyLower (pyStrip s)) "optimal" = true →
      normalize_status s = "optimal") ∧
    (∀ s : String,
      containsTok (pyLower (pyStrip s)) "solved" = false →
      containsTok (pyLower (pyStrip s)) "optimal" = false →
      containsTok (pyLower (pyStrip s)) "infeasible" = true →
      normalize_status s = "infeasible") ∧
    (∀ s : String,
      containsTok (pyLower (pyStrip s)) "solved" = false →
      containsTok (pyLower (pyStrip s)) "optimal" = false →
      containsTok (pyLower (pyStrip s)) "infeasible" = false →
      containsTok (pyLower (pyStrip s)) "unbounded" = true →
      normalize_status s = "unbounded") ∧
    (∀ s : String,
      containsTok (pyLower (pyStrip s)) "solved" = false →
      containsTok (pyLower (pyStrip s)) "optimal" = false →
      containsTok (pyLower (pyStrip s)) "infeasible" = false →
      containsTok (pyLower (pyStrip s)) "unbounded" = false →
      containsTok (pyLower (pyStrip s)) "error" = true ∨
      containsTok (pyLower (pyStrip s)) "fail" = true →
      normalize_status s = "error") ∧
    (∀ s : String,
      containsTok (pyLower (pyStrip s)) "solved" = false →
      containsTok (pyLower (pyStrip s)) "optimal" = false →
      containsTok (pyLower (pyStrip s)) "infeasible" = false →
      containsTok (pyLower (pyStrip s)) "unbounded" = false →
      containsTok (pyLower (pyStrip s)) "error" = false →
      containsTok (pyLower (pyStrip s)) "fail" = false →
      normalize_status s = "unknown") := by
  have hnooptimal : ∀ s : String,
      containsTok (pyLower (pyStrip s)) "optimal" = false →
      containsTok (pyLower (pyStrip s)) "locally optimal" = false ∧
      containsTok (pyLower (pyStrip s)) "globally optimal" = false := by
    intro s h2
    constructor
    · cases hx : containsTok (pyLower (pyStrip s)) "locally optimal"
      · rfl
      · exact absurd (containsTok_mono _ "optimal" _ (by decide) hx) (by simp [h2])
    · cases hx : containsTok (pyLower (pyStrip s)) "globally optimal"
      · rfl
      · exact absurd (containsTok_mono _ "optimal" _ (by decide) hx) (by simp [h2])
  refine ⟨solve_model_status_mem, fun msg => rfl, ?_, ?_, ?_, ?_, ?_, ?_, ?_, ?_⟩
  · intro e h
    simp [solve_model, get_solve_status, h]
  · intro e h
    simp [solve_model, get_solve_status, h]
  · intro e s h hs
    simp [solve_model, get_solve_status, h, hs]
  · intro s h
    rcases h with h | h <;> simp [normalize_status, h]
  · intro s h1 h2 h3
    obtain ⟨hlo, hgo⟩ := hnooptimal s h2
    simp [normalize_status, h1, h2, hlo, hgo, h3]
  · intro s h1 h2 h3 h4
    obtain ⟨hlo, hgo⟩ := hnooptimal s h2
    simp [normalize_status, h1, h2, hlo, hgo, h3, h4]
  · intro s h1 h2 h3 h4 h5
    obtain ⟨hlo, hgo⟩ := hnooptimal s h2
    rcases h5 with h5 | h5 <;> simp [normalize_status, h1, h2, hlo, hgo, h3, h4, h5]
  · intro s h1 h2 h3 h4 h5 h6
    obtain ⟨hlo, hgo⟩ := hnooptimal s h2
    simp [normalize_status, h1, h2, hlo, hgo, h3, h4, h5, h6]

/-- C7 witness: the raw status infeasible normalizes to infeasible through
the ordered chain. -/
theorem C7_witness : normalize_status "infeasible" = "infeasible" :=
  C7_adapter_status_normalization.2.2.2.2.2.2.1 "infeasible"
    (by decide) (by decide) (by decide)

/-- C8: for a known token, cancellation overwrites only the status field of
that token's in-memory entry with cancelled: the durable tables, the clock,
the id allocator, every other token's entry and the entry's remaining fields
are untouched, and a later background execution produces exactly the same
durable rows and status trace as it would without the cancellation; an
unknown token yields 404 with the state unchanged. -/
theorem C8_cancel_updates_only_status_entry :
    (∀ (st : SysState) (job_id : String) (e0 : JobEntry),
      jobGet st.job_status job_id = some e0 →
      (cancel_job st job_id).2 = .ok "Cancellation requested" ∧
      (cancel_job st job_id).1.runs = st.runs ∧
      (cancel_job st job_id).1.var_results = st.var_results ∧
      (cancel_job st job_id).1.con_results = st.con_results ∧
      (cancel_job st job_id).1.ampl_models = st.ampl_models ∧
      (cancel_job st job_id).1.data_files = st.data_files ∧
      (cancel_job st job_id).1.nextRunId = st.nextRunId ∧
      (cancel_job st job_id).1.clock = st.clock ∧
      (∃ e1, jobGet (cancel_job st job_id).1.job_status job_id = some e1 ∧
        e1.status = "cancelled" ∧ e1.progress = e0.progress ∧
        e1.result_id = e0.result_id ∧ e1.error = e0.error) ∧
      (∀ tok, tok ≠ job_id →
        jobGet (cancel_job st job_id).1.job_status tok = jobGet st.job_status tok) ∧
      (∀ (progress : List String) (outcome : AdapterOutcome) (exec_job : String)
          (run_id : Nat),
        (_execute_solver progress outcome exec_job run_id (cancel_job st job_id).1).1.runs =
          (_execute_solver progress outcome exec_job run_id st).1.runs ∧
        (_execute_solver progress outcome exec_job run_id (cancel_job st job_id).1).1.var_results =
          (_execute_solver progress outcome exec_job run_id st).1.var_results ∧
        (_execute_solver progress outcome exec_job run_id (cancel_job st job_id).1).1.con_results =
          (_execute_solver progress outcome exec_job run_id st).1.con_results ∧
        (_execute_solver progress outcome exec_job run_id (cancel_job st job_id).1).2 =
          (_execute_solver progress outcome exec_job run_id st).2)) ∧
    (∀ (st : SysState) (job_id : String),
      jobGet st.job_status job_id = none →
      cancel_job st job_id = (st, .error (.notFound "Job not found"))) := by
  constructor
  · intro st job_id e0 hjob
    rw [cancel_known_spec st job_id e0 hjob]
    refine ⟨rfl, rfl, rfl, rfl, rfl, rfl, rfl, rfl, ?_, ?_, ?_⟩
    · refine ⟨{ e0 with status := "cancelled" }, ?_, rfl, rfl, rfl, rfl⟩
      show jobGet (jobUpd st.job_status job_id (fun e => { e with status := "cancelled" }))
        job_id = _
      rw [jobGet_jobUpd_self, hjob]
      rfl
    · intro tok htok
      show jobGet (jobUpd st.job_status job_id (fun e => { e with status := "cancelled" }))
        tok = _
      exact jobGet_jobUpd_ne st.job_status job_id tok _ htok
    · intro progress outcome exec_job run_id
      exact exec_db_irrel progress outcome exec_job run_id st _
  · intro st job_id hjob
    exact cancel_unknown_spec st job_id hjob

/-- C8 witness: cancelling the fixture token acknowledges the request and
leaves the runs table unchanged. -/
theorem C8_witness :
    (cancel_job stFix "tok").2 = .ok "Cancellation requested" ∧
    (cancel_job stFix "tok").1.runs = stFix.runs :=
  ⟨(C8_cancel_updates_only_status_entry.1 stFix "tok" entryFix (by decide)).1,
   (C8_cancel_updates_only_status_entry.1 stFix "tok" entryFix (by decide)).2.1⟩

theorem get_job_status_of_entry (st : SysState) (job_id : String) (e : JobEntry)
    (h : jobGet st.job_status job_id = some e) :
    get_job_status st job_id = .ok { job_id := job_id, status := e.status, progress := e.progress, result_id := e.result_id, error := e.error } := by
  simp [get_job_status, h]

/-- C9: no in-memory status is immutable: cancellation unconditionally
overwrites any entry status with cancelled while preserving result_id and
error, and a background execution finishing after a cancellation
unconditionally overwrites cancelled with completed (non-error outcome) or
failed (error outcome), so a cancelled job can later poll as completed. -/
theorem C9_status_entry_overwrites :
    (∀ (st : SysState) (job_id : String) (e0 : JobEntry),
      jobGet st.job_status job_id = some e0 →
      ∃ e1, jobGet (cancel_job st job_id).1.job_status job_id = some e1 ∧
        e1.status = "cancelled" ∧ e1.result_id = e0.result_id ∧ e1.error = e0.error) ∧
    (∀ (st : SysState) (job_id : String) (e0 : JobEntry) (run0 : RunRow)
        (run_id : Nat) (progress : List String) (b : EngineBehavior),
      jobGet st.job_status job_id = some e0 → e0.status = "cancelled" →
      findRun st.runs run_id = some run0 → (solve_model b).status ≠ "error" →
      ∃ snap, get_job_status (_execute_solver progress (.result b) job_id run_id st).1
          job_id = .ok snap ∧
        snap.status = "completed" ∧ snap.result_id = some run_id) ∧
    (∀ (st : SysState) (job_id : String) (e0 : JobEntry) (run0 : RunRow)
        (run_id : Nat) (progress : List String) (b : EngineBehavior),
      jobGet st.job_status job_id = some e0 → e0.status = "cancelled" →
      findRun st.runs run_id = some run0 → (solve_model b).status = "error" →
      ∃ snap, get_job_status (_execute_solver progress (.result b) job_id run_id st).1
          job_id = .ok snap ∧
        snap.status = "failed") := by
  refine ⟨?_, ?_, ?_⟩
  · intro st job_id e0 hjob
    rw [cancel_known_spec st job_id e0 hjob]
    refine ⟨{ e0 with status := "cancelled" }, ?_, rfl, rfl, rfl⟩
    show jobGet (jobUpd st.job_status job_id (fun e => { e with status := "cancelled" }))
      job_id = _
    rw [jobGet_jobUpd_self, hjob]
    rfl
  · intro st job_id e0 run0 run_id progress b hjob hcanc hrun hok
    have hok' : ((solve_model b).status == "error") = false := by simpa using hok
    obtain ⟨_, _, _, _, hjg⟩ := exec_success_spec progress b job_id run_id st run0 hrun hok'
    have hentry : jobGet (_execute_solver progress (.result b) job_id run_id st).1.job_status
        job_id = some { setProgAll progress { e0 with status := "running" } with
          status := "completed", result_id := some run_id } := by
      rw [hjg, hjob]; rfl
    rw [get_job_status_of_entry _ _ _ hentry]
    refine ⟨_, rfl, ?_, ?_⟩ <;> rfl
  · intro st job_id e0 run0 run_id progress b hjob hcanc hrun herr
    obtain ⟨_, _, _, _, hjg⟩ := exec_error_spec progress b job_id run_id st run0 hrun herr
    have hentry : jobGet (_execute_solver progress (.result b) job_id run_id st).1.job_status
        job_id = some { setProgAll progress { e0 with status := "running" } with
          status := "failed", result_id := some run_id,
          error := some (pyOr (solve_model b).error_message "Solver execution failed") } := by
      rw [hjg, hjob]; rfl
    rw [get_job_status_of_entry _ _ _ hentry]
    refine ⟨_, rfl, ?_⟩
    rfl

/-- C9 witness: a job whose entry was cancelled polls as completed after the
background execution finishes successfully. -/
theorem C9_witness :
    ∃ snap, get_job_status (_execute_solver [] (.result (.ok engFix)) "tok" 1
        { stFix with job_status := [("tok", { status := "cancelled" })] }).1 "tok" =
      .ok snap ∧ snap.status = "completed" ∧ snap.result_id = some 1 :=
  C9_status_entry_overwrites.2.1
    { stFix with job_status := [("tok", { status := "cancelled" })] }
    "tok" { status := "cancelled" } runFix 1 [] (.ok engFix)
    (by decide) (by decide) (by decide) (by decide)

/-- C10: on the uncaught-exception path the failed entry keeps result_id at
none even though the durable run still exists, while the adapter-error path
sets result_id to the run id. -/
theorem C10_failed_entry_result_id_asymmetry :
    (∀ (st : SysState) (progress : List String) (msg job_id : String) (run_id : Nat)
        (e0 : JobEntry) (run0 : RunRow),
      jobGet st.job_status job_id = some e0 → e0.result_id = none →
      findRun st.runs run_id = some run0 →
      ∃ e1, jobGet (_execute_solver progress (.raise msg) job_id run_id st).1.job_status
          job_id = some e1 ∧
        e1.status = "failed" ∧ e1.result_id = none ∧
        (findRun (_execute_solver progress (.raise msg) job_id run_id st).1.runs
          run_id).isSome = true) ∧
    (∀ (st : SysState) (progress : List String) (b : EngineBehavior) (job_id : String)
        (run_id : Nat) (e0 : JobEntry) (run0 : RunRow),
      jobGet st.job_status job_id = some e0 →
      findRun st.runs run_id = some run0 →
      (solve_model b).status = "error" →
      ∃ e1, jobGet (_execute_solver progress (.result b) job_id run_id st).1.job_status
          job_id = some e1 ∧
        e1.status = "failed" ∧ e1.result_id = some run_id) := by
  constructor
  · intro st progress msg job_id run_id e0 run0 hjob hres hrun
    obtain ⟨_, hfind, _, _, hjg⟩ := exec_raise_spec progress msg job_id run_id st run0 hrun
    refine ⟨_, by rw [hjg, hjob]; rfl, rfl, ?_, by rw [hfind]; rfl⟩
    show ({ setProgAll progress { e0 with status := "running" } with
      status := "failed", error := some msg } : JobEntry).result_id = none
    simp only [setProgAll_result_id]
    exact hres
  · intro st progress b job_id run_id e0 run0 hjob hrun herr
    obtain ⟨_, _, _, _, hjg⟩ := exec_error_spec progress b job_id run_id st run0 hrun herr
    exact ⟨_, by rw [hjg, hjob]; rfl, rfl, rfl⟩

/-- C10 witness: the exception path on the fixture leaves result_id unset in
the failed entry. -/
theorem C10_witness :
    ∃ e1, jobGet (_execute_solver [] (.raise "boom") "tok" 1 stFix).1.job_status
        "tok" = some e1 ∧
      e1.status = "failed" ∧ e1.result_id = none ∧
      (findRun (_execute_solver [] (.raise "boom") "tok" 1 stFix).1.runs 1).isSome = true :=
  C10_failed_entry_result_id_asymmetry.1 stFix [] "boom" "tok" 1 entryFix runFix
    (by decide) (by decide) (by decide)
